import Mathlib

/-!
Verification of the layered hot-water-tank simulation (class `Tank` of
`custom_components/tank_model/__init__.py`).

Embedding conventions:
* Python floats are modelled as exact rationals; the decimal literals of the
  source (0.6, 0.4, 0.001, 0.00024, 5.0) become the corresponding exact
  rationals.  `math.pi` is the IEEE-754 double closest to pi, which is the
  exact rational 884279719003555 / 2^48; we use that exact value.
* Temperatures live in a Python list; we model it as `List Rat` and use
  `List.getD i 0` for indexing.  The source indexes only in range for valid
  tanks; theorems about heater selection carry an in-range hypothesis since
  Python would raise `IndexError` on an out-of-range heater index.
* Division in Python raises `ZeroDivisionError` for a zero divisor (also for
  floats); methods whose divisors can be zero (`available_volume`,
  `use_water`, which divide by `target_temperature - inlet_temperature`, by
  `vt`, and by the layer count) are therefore modelled in `Except PyErr`.
  `Tank.update` divides only by the layer count; it is modelled as a total
  function (with `x / 0 = 0`), which agrees with the source whenever the
  tank has at least one layer; a zero-layer tank makes the source raise.
* The stabilisation loop of `Tank.update` reads
      while out_of_order:
          for i in range(n_layers-1): ...
          else: out_of_order = False
  In Python the `else` of a `for` statement runs whenever the loop finishes
  without `break`; there is no `break` here, so `out_of_order` is reset to
  `False` unconditionally at the end of the first sweep and the `while` body
  executes exactly once.  The embedding (`convectionSweep`) is therefore a
  single bottom-to-top sweep, faithful to what the source executes.
-/

/-- Errors a Tank method can raise; only division by zero occurs in the core. -/
inductive PyErr where
  | zeroDivision
deriving DecidableEq

/-- Python float division: raises ZeroDivisionError on a zero divisor. -/
def pyDiv (a b : ℚ) : Except PyErr ℚ :=
  if b = 0 then .error .zeroDivision else .ok (a / b)

/-- Exact rational value of the IEEE-754 double `math.pi`. -/
def mathPi : ℚ := 884279719003555 / 281474976710656

/-- State of the `Tank` class: all fields set by `Tank.__init__`. -/
structure Tank where
  diameter : ℚ
  height : ℚ
  volume : ℚ
  heater_layers : List ℕ
  state : List ℚ
  inlet_temperature : ℚ
  ambient_temperature : ℚ
  thermostat : ℚ
  heating_power : ℚ
  u_value : ℚ
  heating : Option ℕ
deriving DecidableEq

/-- Constructor `Tank.__init__`: no parameter validation is performed; the
layer vector is `[inlet_temperature] * layers` (empty when `layers <= 0`,
matching Python list replication), heating power starts at 0 and the
`heating` observability field at `None`. -/
def mkTank (diameter height volume : ℚ) (heater_layers : List ℕ) (thermostat : ℚ)
    (layers : ℤ) (u_value inlet_temperature ambient_temperature : ℚ) : Tank :=
  ⟨diameter, height, volume, heater_layers,
   List.replicate layers.toNat inlet_temperature,
   inlet_temperature, ambient_temperature, thermostat, 0, u_value, none⟩

/-- Replace the state vector, keeping every other field. -/
def Tank.setState (t : Tank) (s : List ℚ) : Tank :=
  ⟨t.diameter, t.height, t.volume, t.heater_layers, s, t.inlet_temperature,
   t.ambient_temperature, t.thermostat, t.heating_power, t.u_value, t.heating⟩

/-- Replace the state vector and the heating observability field. -/
def Tank.setStateHeating (t : Tank) (s : List ℚ) (h : Option ℕ) : Tank :=
  ⟨t.diameter, t.height, t.volume, t.heater_layers, s, t.inlet_temperature,
   t.ambient_temperature, t.thermostat, t.heating_power, t.u_value, h⟩

/-- layer_height = self.height / n_layers. -/
def Tank.layerHeight (t : Tank) : ℚ := t.height / t.state.length

/-- horiz_area = math.pi * self.diameter * layer_height. -/
def Tank.horizArea (t : Tank) : ℚ := mathPi * t.diameter * t.layerHeight

/-- top_area = math.pi * ((self.diameter / 2) ** 2). -/
def Tank.topArea (t : Tank) : ℚ := mathPi * (t.diameter / 2) ^ 2

/-- slice_volume = self.volume / n_layers. -/
def Tank.sliceVolume (t : Tank) : ℚ := t.volume / t.state.length

/-- Value of the Python expression `heating_layer or i`: `None` and `0` are
falsy, any other stored index is returned unchanged. -/
def pyOrNat (a : Option ℕ) (i : ℕ) : ℕ :=
  match a with
  | none => i
  | some 0 => i
  | some k => k

/-- Body of the heater-selection loop:
`if new_state[i] < self.thermostat: heating_layer = max(heating_layer or i, i)`. -/
def heatStep (th : ℚ) (g : ℕ → ℚ) (acc : Option ℕ) (i : ℕ) : Option ℕ :=
  if g i < th then some (max (pyOrNat acc i) i) else acc

/-- Heater selection of `Tank.update`: fold of `heatStep` over
`self.heater_layers`, starting from `None`; reads the pre-tick state
(`new_state` is still a copy of `self.state` at this point). -/
def Tank.heatingLayer (t : Tank) : Option ℕ :=
  t.heater_layers.foldl (heatStep t.thermostat (fun i => t.state.getD i 0)) none

/-- heat_in for layer i: `self.heating_power` if `i == heating_layer` else 0. -/
def Tank.heatIn (t : Tank) (hl : Option ℕ) (i : ℕ) : ℚ :=
  if hl = some i then t.heating_power else 0

/-- Conduction term for layer i, from the pre-tick snapshot:
0.6 * (T[i-1] - T[i]) when a layer below exists plus 0.6 * (T[i+1] - T[i])
when a layer above exists. -/
def Tank.condTerm (t : Tank) (i : ℕ) : ℚ :=
  (if 0 < i then (0.6 : ℚ) * (t.state.getD (i - 1) 0 - t.state.getD i 0) else 0) +
  (if i + 1 < t.state.length then (0.6 : ℚ) * (t.state.getD (i + 1) 0 - t.state.getD i 0) else 0)

/-- Exposed area of layer i: lateral area plus a cap for the bottom and top layer. -/
def Tank.exposedArea (t : Tank) (i : ℕ) : ℚ :=
  t.horizArea + (if i = 0 ∨ i + 1 = t.state.length then t.topArea else 0)

/-- loss = self.u_value * slice_area * (T[i] - ambient_temperature). -/
def Tank.lossTerm (t : Tank) (i : ℕ) : ℚ :=
  t.u_value * t.exposedArea i * (t.state.getD i 0 - t.ambient_temperature)

/-- Temperature increment of layer i over the tick:
`(heat_in + conduction - loss) * time * 0.00024 / slice_volume`. -/
def Tank.layerDelta (t : Tank) (hl : Option ℕ) (time : ℚ) (i : ℕ) : ℚ :=
  (t.heatIn hl i + t.condTerm i - t.lossTerm i) * time * (0.00024 : ℚ) / t.sliceVolume

/-- The energy-balance pass of `Tank.update`: every layer gets its delta,
all computed from the pre-tick snapshot. -/
def Tank.energyState (t : Tank) (hl : Option ℕ) (time : ℚ) : List ℚ :=
  (List.range t.state.length).map (fun i => t.state.getD i 0 + t.layerDelta hl time i)

/-- Low value of a convective exchange: `new_state[i+1] + 0.4 * (new_state[i] - new_state[i+1])`. -/
def sweepLo (x y : ℚ) : ℚ := y + (0.4 : ℚ) * (x - y)

/-- High value of a convective exchange: `new_state[i] - 0.4 * (new_state[i] - new_state[i+1])`. -/
def sweepHi (x y : ℚ) : ℚ := x - (0.4 : ℚ) * (x - y)

/-- One step of the in-place bottom-to-top stabilisation sweep; `x` is the
current value at position i, the list holds positions i+1 and above.  When
`x > 0.001 + y` the pair is replaced by `(lo, hi)` and `hi` moves on to be
compared with the next layer, exactly as the in-place Python loop does. -/
def sweepAux (x : ℚ) : List ℚ → List ℚ
  | [] => [x]
  | y :: rest =>
    if x > (0.001 : ℚ) + y then sweepLo x y :: sweepAux (sweepHi x y) rest
    else x :: sweepAux y rest

/-- The convective stabilisation of `Tank.update`.  As explained in the file
header, the for-else construct of the source resets `out_of_order` after
every complete sweep, so the while loop performs exactly one sweep. -/
def convectionSweep : List ℚ → List ℚ
  | [] => []
  | x :: rest => sweepAux x rest

/-- Post-hoc safety clamp: `[min(self.thermostat + 5.0, x) for x in new_state]`. -/
def clampState (th : ℚ) (l : List ℚ) : List ℚ :=
  l.map (fun x => min (th + 5) x)

/-- Method `Tank.update(time)`: no-op for `time <= 0`; otherwise heater
selection, the energy-balance pass, one stabilisation sweep, the clamp, and
the update of the `heating` observability field (set inside the energy loop
at the active layer when `heat_in > 0`, prepared as `None` beforehand). -/
def Tank.update (t : Tank) (time : ℚ) : Tank :=
  if time ≤ 0 then t
  else
    t.setStateHeating
      (clampState t.thermostat (convectionSweep (t.energyState t.heatingLayer time)))
      (if 0 < t.heating_power then t.heatingLayer else none)

/-- Accumulating loop of `Tank.available_volume`: for each layer at or above
the target, `acc += vc + slice_volume` with
`vc = slice_volume * (layer_temp - target) / (target - inlet)`. -/
def availAux (slice target inlet : ℚ) : List ℚ → ℚ → Except PyErr ℚ
  | [], acc => .ok acc
  | T :: rest, acc =>
    if target ≤ T then
      match pyDiv (slice * (T - target)) (target - inlet) with
      | .error e => .error e
      | .ok vc => availAux slice target inlet rest (acc + (vc + slice))
    else availAux slice target inlet rest acc

/-- Method `Tank.available_volume(target_temperature)`.  A zero-layer tank
raises at the `self.volume / n_layers` division, hence the guard. -/
def Tank.available_volume (t : Tank) (target : ℚ) : Except PyErr ℚ :=
  if t.state.length = 0 then .error .zeroDivision
  else availAux t.sliceVolume target t.inlet_temperature t.state 0

/-- Modelled from the spec words of section 4.3 (for refinement comparison
with the source function): sum over the layers at or above the target of
`layer_volume * (T - target) / (target - inlet) + layer_volume`. -/
def availableVolume_spec (t : Tank) (target : ℚ) : ℚ :=
  (t.state.map (fun T =>
    if target ≤ T then
      t.sliceVolume * (T - target) / (target - t.inlet_temperature) + t.sliceVolume
    else 0)).sum

/-- Scanning loop of `Tank.use_water`, over the layers listed top-down
(the caller passes `state.reverse` for `reversed(range(n_layers))`).
Returns the raw tank volume consumed (`used_volume`).  A layer at or above
the target yields `vt = vc + slice`; a full consumption subtracts `vt` from
the demand and adds one slice volume, a partial consumption adds
`slice * volume_l / vt` and stops the scan. -/
def useScan (slice target inlet : ℚ) : List ℚ → ℚ → Except PyErr ℚ
  | [], _ => .ok 0
  | T :: rest, v =>
    match (if target ≤ T then pyDiv (slice * (T - target)) (target - inlet) else .ok 0) with
    | .error e => .error e
    | .ok vc =>
      if vc + slice ≤ v then
        match useScan slice target inlet rest (v - (vc + slice)) with
        | .error e => .error e
        | .ok u => .ok (slice + u)
      else pyDiv (slice * v) (vc + slice)

/-- Cascading partial blend of `Tank.use_water`: iterates bottom-up over the
kept layers; each layer becomes `(T * keep + t_below * fill) / (keep + fill)`
where `t_below` is the original temperature of the layer below
(`inlet_temperature` for the bottommost layer). -/
def blendUp (keep fill tb : ℚ) : List ℚ → List ℚ
  | [] => []
  | x :: rest => (x * keep + tb * fill) / (keep + fill) :: blendUp keep fill x rest

/-- Method `Tank.use_water(volume_l, target_temperature)`: no-op for
`volume_l <= 0`; zero-layer tanks raise at the slice-volume division.
Otherwise: scan top-down accumulating `used_volume`, discard the fully used
top slices, blend the kept stack when a fractional part remains, and prepend
that many inlet-temperature layers at the bottom. -/
def Tank.use_water (t : Tank) (volume_l target : ℚ) : Except PyErr Tank :=
  if volume_l ≤ 0 then .ok t
  else if t.state.length = 0 then .error .zeroDivision
  else
    match useScan t.sliceVolume target t.inlet_temperature t.state.reverse volume_l with
    | .error e => .error e
    | .ok used =>
      let whole : ℕ := (⌊used / t.sliceVolume⌋).toNat
      let fill : ℚ := used - t.sliceVolume * ⌊used / t.sliceVolume⌋
      let kept : List ℚ := t.state.take (t.state.length - whole)
      .ok (t.setState
        (List.replicate whole t.inlet_temperature ++
          (if 0 < fill then blendUp (t.sliceVolume - fill) fill t.inlet_temperature kept
           else kept)))

/-- Tracks whether the top-down scan of `use_water` reaches a layer at or
above the target temperature before the demand is exhausted (that is,
whether the mixing division is evaluated for a qualifying layer). -/
def scanReachesHot (slice target : ℚ) : List ℚ → ℚ → Bool
  | [], _ => false
  | T :: rest, v =>
    if target ≤ T then true
    else if slice ≤ v then scanReachesHot slice target rest (v - slice)
    else false

/-! Basic facts about the embedded operations. -/

@[simp] lemma Tank.setState_state (t : Tank) (s : List ℚ) : (t.setState s).state = s := rfl

@[simp] lemma Tank.setStateHeating_state (t : Tank) (s : List ℚ) (h : Option ℕ) :
    (t.setStateHeating s h).state = s := rfl

lemma sweepAux_length (x : ℚ) (l : List ℚ) : (sweepAux x l).length = l.length + 1 := by
  induction l generalizing x with
  | nil => rfl
  | cons y rest ih =>
    rw [sweepAux]
    split
    · simp [ih]
    · simp [ih]

lemma convectionSweep_length (l : List ℚ) : (convectionSweep l).length = l.length := by
  cases l with
  | nil => rfl
  | cons x rest => simp [convectionSweep, sweepAux_length]

lemma clampState_length (th : ℚ) (l : List ℚ) : (clampState th l).length = l.length := by
  simp [clampState]

lemma energyState_length (t : Tank) (hl : Option ℕ) (time : ℚ) :
    (t.energyState hl time).length = t.state.length := by
  simp [Tank.energyState]

lemma blendUp_length (keep fill tb : ℚ) (l : List ℚ) :
    (blendUp keep fill tb l).length = l.length := by
  induction l generalizing tb with
  | nil => rfl
  | cons x rest ih => simp [blendUp, ih]

lemma sweepAux_sum (x : ℚ) (l : List ℚ) : (sweepAux x l).sum = x + l.sum := by
  induction l generalizing x with
  | nil => simp [sweepAux]
  | cons y rest ih =>
    rw [sweepAux]
    split
    · simp only [List.sum_cons, ih, sweepLo, sweepHi]
      ring
    · simp only [List.sum_cons, ih]

lemma convectionSweep_sum (l : List ℚ) : (convectionSweep l).sum = l.sum := by
  cases l with
  | nil => rfl
  | cons x rest => simp [convectionSweep, sweepAux_sum]

lemma clampState_sum_le (th : ℚ) (l : List ℚ) : (clampState th l).sum ≤ l.sum := by
  induction l with
  | nil => simp [clampState]
  | cons a l ih =>
    simp only [clampState, List.map_cons, List.sum_cons] at *
    exact add_le_add (min_le_right _ _) ih

/-! Concrete tanks used to evaluate the model at specific inputs. -/

/-- Three-layer tank with no heat loss (u_value 0) and no heater, state
listed bottom to top. -/
def tankC1 : Tank := ⟨0, 0, 3, [], [10, 10, 0], 15, 20, 60, 0, 0, none⟩

/-- Three-layer tank with a cold middle layer between two hot layers and
ambient temperature below every layer. -/
def tankC5 : Tank := ⟨0, 0, 3, [], [10, 0, 10], 15, -1, 60, 0, 0, none⟩

/-- Three-layer tank with a strictly decreasing-from-bottom profile. -/
def tankC5W : Tank := ⟨0, 0, 3, [], [10, 5, 1], 15, 0, 60, 0, 0, none⟩

/-- Two-layer tank (90 liters per layer) holding 40 over 70 degrees. -/
def tank2 : Tank := ⟨0, 0, 180, [], [40, 70], 15, 20, 60, 0, 0, none⟩

/-- Ten uniform layers at 70 degrees, inlet at 15. -/
def tank70 : Tank := ⟨0, 0, 180, [], List.replicate 10 70, 15, 20, 60, 0, 0, none⟩

/-- Eight layers at 20 degrees with heater elements at layers 2 and 7. -/
def tank47 : Tank := ⟨0, 0, 180, [2, 7], List.replicate 8 20, 15, 20, 60, 0, 0, none⟩

/-- Single layer at 70 degrees, inlet at 15. -/
def tank71 : Tank := ⟨0, 0, 90, [], [70], 15, 20, 60, 0, 0, none⟩

/-! Evaluation lemmas for the concrete tanks (the exact rational results of
running the model on them). -/

lemma range_three : List.range 3 = [0, 1, 2] := rfl

lemma tankC1_update_state :
    (tankC1.update 1).state = [312473/31250, 625099/156250, 468768/78125] := by
  norm_num [tankC1, Tank.update, Tank.setStateHeating, Tank.heatingLayer, Tank.energyState,
    Tank.layerDelta, Tank.heatIn, Tank.condTerm, Tank.lossTerm, Tank.exposedArea, Tank.horizArea,
    Tank.topArea, Tank.layerHeight, Tank.sliceVolume, mathPi, clampState, convectionSweep,
    sweepAux, sweepLo, sweepHi, range_three]

lemma tankC5_update_state :
    (tankC5.update 1).state = [62518/15625, 187509/31250, 62491/6250] := by
  norm_num [tankC5, Tank.update, Tank.setStateHeating, Tank.heatingLayer, Tank.energyState,
    Tank.layerDelta, Tank.heatIn, Tank.condTerm, Tank.lossTerm, Tank.exposedArea, Tank.horizArea,
    Tank.topArea, Tank.layerHeight, Tank.sliceVolume, mathPi, clampState, convectionSweep,
    sweepAux, sweepLo, sweepHi, range_three]

lemma floor_half : (⌊(45 : ℚ) / 90⌋) = 0 := by
  rw [Int.floor_eq_zero_iff]
  constructor <;> norm_num

lemma tank2_use_water : tank2.use_water (165/2) 45 = .ok (tank2.setState [55/2, 55]) := by
  norm_num [tank2, Tank.use_water, Tank.sliceVolume, useScan, pyDiv, blendUp, floor_half,
    List.take, List.replicate, Tank.setState]

/-! Claim theorems. -/

/-- C1 (code bug): the source intends the stabilisation to repeat sweeps
until no adjacent pair is inverted beyond 0.001, but the for-else construct
resets the loop flag unconditionally, so only one sweep runs and an
inversion can survive `update`.  Concretely, for the tank with layers
[10, 10, 0] a single tick of one second leaves layer 0 hotter than layer 1
by far more than the epsilon. -/
theorem c1_single_sweep_leaves_inversion :
    (tankC1.update 1).state.getD 0 0 > (tankC1.update 1).state.getD 1 0 + (0.001 : ℚ) := by
  rw [tankC1_update_state]
  norm_num

/-- C6: after `update` with positive elapsed time, every layer temperature
is at most `thermostat + 5`, because the clamp is the last step of the
update. -/
theorem c6_clamp_invariant (t : Tank) (time : ℚ) (ht : 0 < time) :
    ∀ x ∈ (t.update time).state, x ≤ t.thermostat + 5 := by
  intro x hx
  unfold Tank.update at hx
  rw [if_neg (not_le.mpr ht)] at hx
  rw [Tank.setStateHeating_state] at hx
  unfold clampState at hx
  obtain ⟨y, _, hxy⟩ := List.mem_map.mp hx
  rw [← hxy]
  exact min_le_left _ _

/-- Witness for C6 at a concrete tank and tick length. -/
theorem c6_clamp_invariant_witness :
    (312473/31250 : ℚ) ≤ tankC1.thermostat + 5 := by
  have hmem : (312473/31250 : ℚ) ∈ (tankC1.update 1).state := by
    rw [tankC1_update_state]
    exact List.mem_cons_self _ _
  exact c6_clamp_invariant tankC1 1 (by norm_num) _ hmem

/-- C10: each convective exchange preserves the sum of the pair, the whole
stabilisation pass preserves the sum of all layer temperatures, and the
state produced by `update` is exactly the clamp applied to the sweep of the
energy-balance state, so only those two stages can change the total. -/
theorem c10_sweep_energy_conservation (t : Tank) (time : ℚ) (ht : 0 < time) :
    (∀ x y : ℚ, sweepLo x y + sweepHi x y = x + y) ∧
    (∀ l : List ℚ, (convectionSweep l).sum = l.sum) ∧
    (t.update time).state =
      clampState t.thermostat (convectionSweep (t.energyState t.heatingLayer time)) := by
  refine ⟨fun x y => by unfold sweepLo sweepHi; ring, convectionSweep_sum, ?_⟩
  unfold Tank.update
  rw [if_neg (not_le.mpr ht)]
  exact Tank.setStateHeating_state ..

/-- Witness for C10 at a concrete tank and tick length. -/
theorem c10_sweep_energy_conservation_witness :
    (tankC1.update 1).state =
      clampState tankC1.thermostat (convectionSweep (tankC1.energyState tankC1.heatingLayer 1)) :=
  (c10_sweep_energy_conservation tankC1 1 (by norm_num)).2.2

/-! Summation machinery for the energy-balance pass. -/

lemma list_range_map_sum (f : ℕ → ℚ) (n : ℕ) :
    ((List.range n).map f).sum = ∑ i ∈ Finset.range n, f i := by
  induction n with
  | zero => simp
  | succ n ih =>
    rw [List.range_succ, List.map_append, List.sum_append, Finset.sum_range_succ, ih]
    simp

lemma sum_getD (l : List ℚ) : (∑ i ∈ Finset.range l.length, l.getD i 0) = l.sum := by
  induction l with
  | nil => simp
  | cons a l ih =>
    rw [List.length_cons, Finset.sum_range_succ']
    simp only [List.getD_cons_succ, List.getD_cons_zero, List.sum_cons]
    rw [ih]
    ring

lemma condSum_zero (g : ℕ → ℚ) (n : ℕ) :
    (∑ i ∈ Finset.range n,
      ((if 0 < i then (0.6 : ℚ) * (g (i - 1) - g i) else 0) +
       (if i + 1 < n then (0.6 : ℚ) * (g (i + 1) - g i) else 0))) = 0 := by
  rw [Finset.sum_add_distrib]
  cases n with
  | zero => simp
  | succ m =>
    have h1 : (∑ i ∈ Finset.range (m + 1), (if 0 < i then (0.6 : ℚ) * (g (i - 1) - g i) else 0))
        = ∑ i ∈ Finset.range m, (0.6 : ℚ) * (g i - g (i + 1)) := by
      rw [Finset.sum_range_succ']
      simp [Nat.succ_sub_one]
    have h2 : (∑ i ∈ Finset.range (m + 1),
          (if i + 1 < m + 1 then (0.6 : ℚ) * (g (i + 1) - g i) else 0))
        = ∑ i ∈ Finset.range m, (0.6 : ℚ) * (g (i + 1) - g i) := by
      rw [Finset.sum_range_succ, if_neg (lt_irrefl _), add_zero]
      apply Finset.sum_congr rfl
      intro i hi
      rw [if_pos (Nat.add_lt_add_right (Finset.mem_range.mp hi) 1)]
    rw [h1, h2, ← Finset.sum_add_distrib]
    apply Finset.sum_eq_zero
    intro i _
    ring

lemma getD_mem_of_lt (l : List ℚ) (i : ℕ) (h : i < l.length) : l.getD i 0 ∈ l := by
  induction l generalizing i with
  | nil => simp at h
  | cons a l ih =>
    cases i with
    | zero => simp
    | succ i =>
      simp only [List.getD_cons_succ]
      exact List.mem_cons_of_mem _ (ih i (by simpa using h))

lemma mathPi_nonneg : (0 : ℚ) ≤ mathPi := by norm_num [mathPi]

lemma exposedArea_nonneg (t : Tank) (hd : 0 ≤ t.diameter) (hh : 0 ≤ t.height) (i : ℕ) :
    0 ≤ t.exposedArea i := by
  unfold Tank.exposedArea Tank.horizArea Tank.topArea Tank.layerHeight
  have h2 : (0 : ℚ) ≤ t.height / t.state.length := div_nonneg hh (by positivity)
  have h3 : (0 : ℚ) ≤ mathPi * t.diameter * (t.height / t.state.length) :=
    mul_nonneg (mul_nonneg mathPi_nonneg hd) h2
  have h4 : (0 : ℚ) ≤ mathPi * (t.diameter / 2) ^ 2 :=
    mul_nonneg mathPi_nonneg (sq_nonneg _)
  split
  · exact add_nonneg h3 h4
  · simpa using h3

lemma lossTerm_nonneg (t : Tank) (hd : 0 ≤ t.diameter) (hh : 0 ≤ t.height)
    (hu : 0 ≤ t.u_value) (hamb : ∀ T ∈ t.state, t.ambient_temperature < T)
    (i : ℕ) (hi : i < t.state.length) : 0 ≤ t.lossTerm i := by
  unfold Tank.lossTerm
  apply mul_nonneg (mul_nonneg hu (exposedArea_nonneg t hd hh i))
  have := hamb _ (getD_mem_of_lt t.state i hi)
  linarith

lemma energyState_sum (t : Tank) (hl : Option ℕ) (time : ℚ) :
    (t.energyState hl time).sum =
      t.state.sum + (∑ i ∈ Finset.range t.state.length, t.layerDelta hl time i) := by
  unfold Tank.energyState
  rw [list_range_map_sum, Finset.sum_add_distrib, sum_getD]

lemma layerDelta_sum_nonpos (t : Tank) (hl : Option ℕ) (time : ℚ)
    (htime : 0 < time) (hp : t.heating_power = 0)
    (hd : 0 ≤ t.diameter) (hh : 0 ≤ t.height) (hu : 0 ≤ t.u_value) (hv : 0 < t.volume)
    (hamb : ∀ T ∈ t.state, t.ambient_temperature < T) :
    (∑ i ∈ Finset.range t.state.length, t.layerDelta hl time i) ≤ 0 := by
  have hrw : ∀ i, t.layerDelta hl time i
      = (t.heatIn hl i + t.condTerm i - t.lossTerm i) * (time * (0.00024 : ℚ) / t.sliceVolume) := by
    intro i
    unfold Tank.layerDelta
    ring
  simp only [hrw]
  rw [← Finset.sum_mul]
  have hK : 0 ≤ time * (0.00024 : ℚ) / t.sliceVolume := by
    apply div_nonneg (by positivity)
    exact div_nonneg hv.le (by positivity)
  apply mul_nonpos_of_nonpos_of_nonneg _ hK
  have hheat : ∀ i, t.heatIn hl i = 0 := by
    intro i
    unfold Tank.heatIn
    rw [hp]
    split <;> rfl
  have hsplit : (∑ i ∈ Finset.range t.state.length,
        (t.heatIn hl i + t.condTerm i - t.lossTerm i))
      = (∑ i ∈ Finset.range t.state.length, t.condTerm i)
        - ∑ i ∈ Finset.range t.state.length, t.lossTerm i := by
    rw [← Finset.sum_sub_distrib]
    apply Finset.sum_congr rfl
    intro i _
    rw [hheat i]
    ring
  rw [hsplit]
  have hcond : (∑ i ∈ Finset.range t.state.length, t.condTerm i) = 0 := by
    have := condSum_zero (fun i => t.state.getD i 0) t.state.length
    simpa [Tank.condTerm] using this
  have hloss : 0 ≤ ∑ i ∈ Finset.range t.state.length, t.lossTerm i := by
    apply Finset.sum_nonneg
    intro i hi
    exact lossTerm_nonneg t hd hh hu hamb i (Finset.mem_range.mp hi)
  rw [hcond]
  linarith

/-- C5 (amended): with zero heater power and the ambient temperature below
every layer, a tick cannot increase the total of the layer temperatures
(the sum is non-increasing; individual layers can still warm through
conduction from hotter neighbours). -/
theorem c5_total_temperature_nonincreasing (t : Tank) (time : ℚ)
    (htime : 0 < time) (hp : t.heating_power = 0)
    (hd : 0 ≤ t.diameter) (hh : 0 ≤ t.height) (hu : 0 ≤ t.u_value) (hv : 0 < t.volume)
    (hamb : ∀ T ∈ t.state, t.ambient_temperature < T) :
    ((t.update time).state).sum ≤ t.state.sum := by
  unfold Tank.update
  rw [if_neg (not_le.mpr htime), Tank.setStateHeating_state]
  calc (clampState t.thermostat (convectionSweep (t.energyState t.heatingLayer time))).sum
      ≤ (convectionSweep (t.energyState t.heatingLayer time)).sum := clampState_sum_le _ _
    _ = (t.energyState t.heatingLayer time).sum := convectionSweep_sum _
    _ ≤ t.state.sum := by
        rw [energyState_sum]
        have := layerDelta_sum_nonpos t t.heatingLayer time htime hp hd hh hu hv hamb
        linarith

/-- Counterexample to C5 as stated: in the tank with layers [10, 0, 10],
zero heater power and ambient temperature strictly below every layer, the
middle layer warms across the tick (conduction from both hotter neighbours),
so not every layer temperature is non-increasing. -/
theorem c5_counterexample :
    tankC5.heating_power = 0 ∧
    (∀ T ∈ tankC5.state, tankC5.ambient_temperature < T) ∧
    ¬ ((tankC5.update 1).state.getD 1 0 ≤ tankC5.state.getD 1 0) := by
  refine ⟨rfl, ?_, ?_⟩
  · intro T hT
    simp only [tankC5, List.mem_cons, List.not_mem_nil, or_false] at hT
    rcases hT with rfl | rfl | rfl <;> norm_num [tankC5]
  · rw [tankC5_update_state]
    norm_num [tankC5]

/-- Witness for the amended C5 at a concrete tank and tick length. -/
theorem c5_total_temperature_nonincreasing_witness :
    ((tankC5W.update 1).state).sum ≤ tankC5W.state.sum := by
  apply c5_total_temperature_nonincreasing tankC5W 1 (by norm_num) rfl (by norm_num [tankC5W])
    (by norm_num [tankC5W]) (by norm_num [tankC5W]) (by norm_num [tankC5W])
  intro T hT
  simp only [tankC5W, List.mem_cons, List.not_mem_nil, or_false] at hT
  rcases hT with rfl | rfl | rfl <;> norm_num [tankC5W]

/-! Heater selection facts. -/

lemma heatStep_eq (th : ℚ) (g : ℕ → ℚ) (acc : Option ℕ) (i : ℕ) :
    heatStep th g acc i = if g i < th then some (max (acc.getD 0) i) else acc := by
  cases acc with
  | none => simp [heatStep, pyOrNat]
  | some k =>
    cases k with
    | zero => simp [heatStep, pyOrNat]
    | succ k => rfl

lemma foldl_heat_none (th : ℚ) (g : ℕ → ℚ) (l : List ℕ)
    (h : ∀ k ∈ l, ¬ g k < th) (acc : Option ℕ) :
    l.foldl (heatStep th g) acc = acc := by
  induction l generalizing acc with
  | nil => rfl
  | cons i l ih =>
    rw [List.foldl_cons, heatStep_eq, if_neg (h i (List.mem_cons_self i l))]
    exact ih (fun k hk => h k (List.mem_cons_of_mem _ hk)) acc

lemma foldl_heat_mono (th : ℚ) (g : ℕ → ℚ) (l : List ℕ) :
    ∀ k : ℕ, ∃ m, l.foldl (heatStep th g) (some k) = some m ∧ k ≤ m := by
  induction l with
  | nil => exact fun k => ⟨k, rfl, le_refl k⟩
  | cons i l ih =>
    intro k
    rw [List.foldl_cons, heatStep_eq]
    by_cases hc : g i < th
    · rw [if_pos hc]
      obtain ⟨m, hm, hkm⟩ := ih (max ((some k).getD 0) i)
      refine ⟨m, hm, le_trans ?_ hkm⟩
      simp only [Option.getD_some]
      exact le_max_left k i
    · rw [if_neg hc]
      exact ih k

lemma foldl_heat_ge (th : ℚ) (g : ℕ → ℚ) (l : List ℕ) :
    ∀ (acc : Option ℕ) (j : ℕ), j ∈ l → g j < th →
      ∃ m, l.foldl (heatStep th g) acc = some m ∧ j ≤ m := by
  induction l with
  | nil =>
    intro _ j hj _
    exact absurd hj (List.not_mem_nil j)
  | cons i l ih =>
    intro acc j hj hgj
    rw [List.foldl_cons]
    rcases List.mem_cons.mp hj with hji | hjl
    · subst hji
      rw [heatStep_eq, if_pos hgj]
      obtain ⟨m, hm, hle⟩ := foldl_heat_mono th g l (max (acc.getD 0) j)
      exact ⟨m, hm, le_trans (le_max_right _ _) hle⟩
    · exact ih (heatStep th g acc i) j hjl hgj

lemma foldl_heat_mem (th : ℚ) (g : ℕ → ℚ) (l : List ℕ) :
    ∀ (acc : Option ℕ) (m : ℕ), l.foldl (heatStep th g) acc = some m →
      acc = some m ∨ (m ∈ l ∧ g m < th) := by
  induction l with
  | nil => exact fun acc m h => Or.inl h
  | cons i l ih =>
    intro acc m h
    rw [List.foldl_cons] at h
    rcases ih _ m h with hstep | hmem
    · rw [heatStep_eq] at hstep
      by_cases hc : g i < th
      · rw [if_pos hc] at hstep
        have hm : m = max (acc.getD 0) i := by
          injection hstep with h2
          exact h2.symm
        cases acc with
        | none =>
          right
          simp only [Option.getD_none, Nat.zero_max] at hm
          rw [hm]
          exact ⟨List.mem_cons_self i l, hc⟩
        | some k =>
          simp only [Option.getD_some] at hm
          rcases max_choice k i with hmax | hmax
          · left
            rw [hm, hmax]
          · right
            rw [hm, hmax]
            exact ⟨List.mem_cons_self i l, hc⟩
      · rw [if_neg hc] at hstep
        exact Or.inl hstep
    · exact Or.inr ⟨List.mem_cons_of_mem _ hmem.1, hmem.2⟩

/-- C4: the layer that receives the heater input during a tick is the
highest-indexed member of `heater_layers` whose pre-tick temperature is
strictly below the thermostat; it receives exactly `heating_power`, every
other layer receives zero heater input, and when no heater layer is below
the thermostat no layer receives any.  In particular, with heater layers
[2, 7] both below the thermostat, layer 7 is active and layer 2 gets
nothing. -/
theorem c4_heater_selection (t : Tank) (time : ℚ) (ht : 0 < time)
    (hr : ∀ k ∈ t.heater_layers, k < t.state.length) :
    (∀ j ∈ t.heater_layers, t.state.getD j 0 < t.thermostat →
      (∀ k ∈ t.heater_layers, t.state.getD k 0 < t.thermostat → k ≤ j) →
      t.heatingLayer = some j ∧ t.heatIn t.heatingLayer j = t.heating_power ∧
        ∀ i, i ≠ j → t.heatIn t.heatingLayer i = 0) ∧
    ((∀ k ∈ t.heater_layers, ¬ t.state.getD k 0 < t.thermostat) →
      t.heatingLayer = none ∧ ∀ i, t.heatIn t.heatingLayer i = 0) ∧
    (t.heater_layers = [2, 7] → t.state.getD 2 0 < t.thermostat →
      t.state.getD 7 0 < t.thermostat →
      t.heatingLayer = some 7 ∧ t.heatIn t.heatingLayer 2 = 0) := by
  have hmain : ∀ j ∈ t.heater_layers, t.state.getD j 0 < t.thermostat →
      (∀ k ∈ t.heater_layers, t.state.getD k 0 < t.thermostat → k ≤ j) →
      t.heatingLayer = some j ∧ t.heatIn t.heatingLayer j = t.heating_power ∧
        ∀ i, i ≠ j → t.heatIn t.heatingLayer i = 0 := by
    intro j hj hgj hmax
    obtain ⟨m, hm, hjm⟩ :=
      foldl_heat_ge t.thermostat (fun i => t.state.getD i 0) t.heater_layers none j hj hgj
    rcases foldl_heat_mem t.thermostat (fun i => t.state.getD i 0) t.heater_layers none m hm with
      hnone | ⟨hmem, hlt⟩
    · exact absurd hnone (by simp)
    · have hmj : m = j := le_antisymm (hmax m hmem hlt) hjm
      subst hmj
      have hres : t.heatingLayer = some m := hm
      refine ⟨hres, ?_, ?_⟩
      · rw [Tank.heatIn, hres, if_pos rfl]
      · intro i hi
        rw [Tank.heatIn, hres, if_neg]
        intro hc
        injection hc with hc2
        exact hi hc2.symm
  refine ⟨hmain, ?_, ?_⟩
  · intro hno
    have hres : t.heatingLayer = none :=
      foldl_heat_none t.thermostat (fun i => t.state.getD i 0) t.heater_layers hno none
    refine ⟨hres, fun i => ?_⟩
    rw [Tank.heatIn, hres, if_neg (by simp)]
  · intro hlist h2 h7
    have h7mem : (7 : ℕ) ∈ t.heater_layers := by
      rw [hlist]
      simp
    have hmax : ∀ k ∈ t.heater_layers, t.state.getD k 0 < t.thermostat → k ≤ 7 := by
      intro k hk _
      rw [hlist] at hk
      simp only [List.mem_cons, List.not_mem_nil, or_false] at hk
      rcases hk with rfl | rfl <;> norm_num
    obtain ⟨hres, _, hothers⟩ := hmain 7 h7mem h7 hmax
    exact ⟨hres, hothers 2 (by norm_num)⟩

lemma tank47_state : tank47.state = [20, 20, 20, 20, 20, 20, 20, 20] := rfl

/-- Witness for C4: both heater layers of tank47 are below the thermostat
and the upper one (7) wins. -/
theorem c4_heater_selection_witness :
    tank47.heatingLayer = some 7 ∧ tank47.heatIn tank47.heatingLayer 2 = 0 := by
  have hr : ∀ k ∈ tank47.heater_layers, k < tank47.state.length := by
    intro k hk
    simp only [show tank47.heater_layers = [2, 7] from rfl, List.mem_cons,
      List.not_mem_nil, or_false] at hk
    rcases hk with rfl | rfl <;> simp [tank47_state]
  have h2 : tank47.state.getD 2 0 < tank47.thermostat := by
    rw [show tank47.state.getD 2 0 = 20 from rfl, show tank47.thermostat = 60 from rfl]
    norm_num
  have h7 : tank47.state.getD 7 0 < tank47.thermostat := by
    rw [show tank47.state.getD 7 0 = 20 from rfl, show tank47.thermostat = 60 from rfl]
    norm_num
  exact (c4_heater_selection tank47 1 (by norm_num) hr).2.2 rfl h2 h7

/-! Facts about the available-volume query. -/

lemma availAux_ok (slice target inlet : ℚ) (hne : target - inlet ≠ 0) (l : List ℚ) :
    ∀ acc, availAux slice target inlet l acc =
      .ok (acc + (l.map (fun T =>
        if target ≤ T then slice * (T - target) / (target - inlet) + slice else 0)).sum) := by
  induction l with
  | nil =>
    intro acc
    simp [availAux]
  | cons T rest ih =>
    intro acc
    by_cases hq : target ≤ T
    · simp only [availAux, if_pos hq, pyDiv, if_neg hne]
      rw [ih]
      simp only [List.map_cons, List.sum_cons, if_pos hq, Except.ok.injEq]
      ring
    · rw [availAux, if_neg hq, ih]
      simp only [List.map_cons, List.sum_cons, if_neg hq, Except.ok.injEq]
      ring

/-- C3: `available_volume` is a pure query (modelled as a function of the
tank, returning a value and touching no field) and returns exactly the sum,
over the layers at or above the target, of
`slice * (T - target) / (target - inlet) + slice`; for a tank with all
layers at 70, inlet 15 and target 45 this equals
`volume * (70 - 45) / (45 - 15) + volume`. -/
theorem c3_available_volume_formula (t : Tank) (target : ℚ)
    (h1 : t.inlet_temperature < target) (h2 : t.state.length ≠ 0) :
    t.available_volume target = .ok (availableVolume_spec t target) ∧
    (∀ n : ℕ, 0 < n → ∀ tk : Tank, tk.state = List.replicate n 70 →
      tk.inlet_temperature = 15 →
      tk.available_volume 45 = .ok (tk.volume * (70 - 45) / (45 - 15) + tk.volume)) := by
  constructor
  · rw [Tank.available_volume, if_neg h2,
      availAux_ok _ _ _ (sub_ne_zero.mpr (ne_of_gt h1)), zero_add]
    rfl
  · intro n hn tk hst hinl
    have hlen : tk.state.length = n := by rw [hst, List.length_replicate]
    have hne : (45 : ℚ) - tk.inlet_temperature ≠ 0 := by
      rw [hinl]
      norm_num
    rw [Tank.available_volume, if_neg (by rw [hlen]; exact ne_of_gt hn)]
    rw [availAux_ok _ _ _ hne, zero_add, hst]
    have hmap : (List.replicate n (70 : ℚ)).map (fun T =>
        if (45 : ℚ) ≤ T then tk.sliceVolume * (T - 45) / (45 - tk.inlet_temperature) + tk.sliceVolume
        else 0)
        = List.replicate n (tk.sliceVolume * 25 / 30 + tk.sliceVolume) := by
      rw [List.map_replicate]
      congr 1
      rw [if_pos (by norm_num), hinl]
      norm_num
    rw [hmap, List.sum_replicate, nsmul_eq_mul]
    have hslice : tk.sliceVolume = tk.volume / n := by
      rw [Tank.sliceVolume, hlen]
    have hnQ : (n : ℚ) ≠ 0 := Nat.cast_ne_zero.mpr (ne_of_gt hn)
    rw [hslice, Except.ok.injEq]
    field_simp
    ring

/-- Witness for C3: ten layers at 70, inlet 15, target 45. -/
theorem c3_available_volume_formula_witness :
    tank70.available_volume 45 = .ok (tank70.volume * (70 - 45) / (45 - 15) + tank70.volume) := by
  have h1 : tank70.inlet_temperature < 45 := by
    rw [show tank70.inlet_temperature = 15 from rfl]
    norm_num
  have h2 : tank70.state.length ≠ 0 := by
    rw [show tank70.state.length = 10 from rfl]
    norm_num
  exact (c3_available_volume_formula tank70 45 h1 h2).2 10 (by norm_num) tank70 rfl rfl

/-! Division-by-zero behaviour when the target equals the inlet temperature. -/

lemma availAux_error (slice target inlet : ℚ) (heq : target - inlet = 0) (l : List ℚ) :
    ∀ acc, (∃ T ∈ l, target ≤ T) → availAux slice target inlet l acc = .error .zeroDivision := by
  induction l with
  | nil =>
    intro acc h
    obtain ⟨T, hT, _⟩ := h
    exact absurd hT (List.not_mem_nil T)
  | cons T rest ih =>
    intro acc h
    by_cases hq : target ≤ T
    · simp only [availAux, if_pos hq, pyDiv, if_pos heq]
    · obtain ⟨S, hS, hSt⟩ := h
      rcases List.mem_cons.mp hS with rfl | hS2
      · exact absurd hSt hq
      · rw [availAux, if_neg hq]
        exact ih acc ⟨S, hS2, hSt⟩

lemma useScan_error (slice target inlet : ℚ) (heq : target - inlet = 0) (l : List ℚ) :
    ∀ v, scanReachesHot slice target l v = true →
      useScan slice target inlet l v = .error .zeroDivision := by
  induction l with
  | nil =>
    intro v h
    simp [scanReachesHot] at h
  | cons T rest ih =>
    intro v h
    by_cases hq : target ≤ T
    · simp only [useScan, if_pos hq, pyDiv, if_pos heq]
    · rw [scanReachesHot, if_neg hq] at h
      by_cases hv : slice ≤ v
      · rw [if_pos hv] at h
        simp only [useScan, if_neg hq, zero_add]
        rw [if_pos hv, ih _ h]
      · rw [if_neg hv] at h
        exact absurd h (by simp)

/-- C7: when the target temperature equals the inlet temperature, both
`available_volume` and `use_water` abort with the division-by-zero error
instead of returning a NaN or infinite value, in every tank state in which
the mixing division is reached (some layer at or above the target for the
query; the top-down scan reaching such a layer for the draw). -/
theorem c7_domain_error_on_equal_temps (t : Tank) (target v : ℚ)
    (heq : target = t.inlet_temperature) :
    ((∃ T ∈ t.state, target ≤ T) → t.available_volume target = .error .zeroDivision) ∧
    (0 < v → scanReachesHot t.sliceVolume target t.state.reverse v = true →
      t.use_water v target = .error .zeroDivision) := by
  have heq2 : target - t.inlet_temperature = 0 := sub_eq_zero.mpr heq
  constructor
  · intro hex
    rw [Tank.available_volume]
    by_cases hl : t.state.length = 0
    · rw [if_pos hl]
    · rw [if_neg hl]
      exact availAux_error _ _ _ heq2 _ _ hex
  · intro hv hscan
    rw [Tank.use_water, if_neg (not_le.mpr hv)]
    by_cases hl : t.state.length = 0
    · rw [if_pos hl]
    · rw [if_neg hl, useScan_error _ _ _ heq2 _ _ hscan]

/-- Witness for C7: one layer at 70, inlet and target both 15. -/
theorem c7_domain_error_on_equal_temps_witness :
    tank71.available_volume 15 = .error .zeroDivision ∧
    tank71.use_water 10 15 = .error .zeroDivision := by
  have h := c7_domain_error_on_equal_temps tank71 15 10 rfl
  have hmem : (70 : ℚ) ∈ tank71.state := by
    rw [show tank71.state = [70] from rfl]
    exact List.mem_singleton.mpr rfl
  have hscan : scanReachesHot tank71.sliceVolume 15 tank71.state.reverse 10 = true := by
    rw [show tank71.state.reverse = [70] from rfl]
    simp only [scanReachesHot]
    rw [if_pos (by norm_num : (15 : ℚ) ≤ 70)]
  exact ⟨h.1 ⟨70, hmem, by norm_num⟩, h.2 (by norm_num) hscan⟩

/-! Facts about the water-draw algorithm. -/

lemma blendUp_getD (keep fill : ℚ) (l : List ℚ) :
    ∀ (tb : ℚ) (i : ℕ), i < l.length →
      (blendUp keep fill tb l).getD i 0 =
        ((l.getD i 0) * keep + (if i = 0 then tb else l.getD (i - 1) 0) * fill) / (keep + fill) := by
  induction l with
  | nil =>
    intro tb i hi
    simp at hi
  | cons x rest ih =>
    intro tb i hi
    cases i with
    | zero => simp [blendUp]
    | succ j =>
      rw [blendUp]
      simp only [List.getD_cons_succ]
      rw [ih x j (by simpa using hi)]
      cases j with
      | zero => simp
      | succ j2 => simp [List.getD_cons_succ]

lemma use_water_ok_decomp (t : Tank) (v target used : ℚ)
    (h1 : 0 < v) (h2 : t.state.length ≠ 0)
    (h3 : useScan t.sliceVolume target t.inlet_temperature t.state.reverse v = .ok used) :
    t.use_water v target = .ok (t.setState
      (List.replicate (⌊used / t.sliceVolume⌋).toNat t.inlet_temperature ++
        (if 0 < used - t.sliceVolume * ⌊used / t.sliceVolume⌋ then
          blendUp (t.sliceVolume - (used - t.sliceVolume * ⌊used / t.sliceVolume⌋))
            (used - t.sliceVolume * ⌊used / t.sliceVolume⌋) t.inlet_temperature
            (t.state.take (t.state.length - (⌊used / t.sliceVolume⌋).toNat))
         else t.state.take (t.state.length - (⌊used / t.sliceVolume⌋).toNat)))) := by
  rw [Tank.use_water, if_neg (not_le.mpr h1), if_neg h2, h3]

/-- C2 (amended): when a draw consumes a fractional part of a layer, the
cascading blend runs from the bottom of the kept stack upward: the
bottommost kept layer is blended with `inlet_temperature`, and every higher
layer is blended, by the same formula
`(T * keep + t_below * fill) / (keep + fill)`, with the original (pre-blend)
temperature of the layer directly below it.  The topmost remaining layer is
therefore blended with its lower neighbour, not with the inlet
temperature. -/
theorem c2_blend_upward (t : Tank) (v target used : ℚ)
    (h1 : 0 < v) (h2 : t.state.length ≠ 0)
    (h3 : useScan t.sliceVolume target t.inlet_temperature t.state.reverse v = .ok used)
    (h4 : 0 < used - t.sliceVolume * ⌊used / t.sliceVolume⌋) :
    t.use_water v target = .ok (t.setState
      (List.replicate (⌊used / t.sliceVolume⌋).toNat t.inlet_temperature ++
        blendUp (t.sliceVolume - (used - t.sliceVolume * ⌊used / t.sliceVolume⌋))
          (used - t.sliceVolume * ⌊used / t.sliceVolume⌋) t.inlet_temperature
          (t.state.take (t.state.length - (⌊used / t.sliceVolume⌋).toNat)))) ∧
    (∀ (keep fill tb : ℚ) (l : List ℚ) (i : ℕ), i < l.length →
      (blendUp keep fill tb l).getD i 0 =
        ((l.getD i 0) * keep + (if i = 0 then tb else l.getD (i - 1) 0) * fill) / (keep + fill)) := by
  refine ⟨?_, fun keep fill tb l i hi => blendUp_getD keep fill l tb i hi⟩
  rw [use_water_ok_decomp t v target used h1 h2 h3, if_pos h4]

/-- Counterexample to C2 as stated: drawing 82.5 liters at 45 degrees from
the two-layer tank [40, 70] (inlet 15) consumes half of the top layer
(keep = fill = 45 liters).  The topmost remaining layer ends at 55, which
is the blend of 70 with the original temperature 40 of the layer below;
the claim predicts the blend of 70 with the inlet temperature 15, which
would be 42.5. -/
theorem c2_counterexample :
    (tank2.use_water (165/2) 45).toOption.map Tank.state = some [55/2, 55] ∧
    (55 : ℚ) ≠ (70 * 45 + 15 * 45) / (45 + 45) := by
  constructor
  · rw [tank2_use_water]
    rfl
  · norm_num

/-- Witness for the amended C2 at the same concrete draw. -/
theorem c2_blend_upward_witness :
    tank2.use_water (165/2) 45 = .ok (tank2.setState [55/2, 55]) := by
  have hslice : tank2.sliceVolume = 90 := by
    norm_num [Tank.sliceVolume, tank2]
  have h3 : useScan tank2.sliceVolume 45 tank2.inlet_temperature tank2.state.reverse (165/2)
      = .ok 45 := by
    rw [hslice, show tank2.inlet_temperature = 15 from rfl,
      show tank2.state.reverse = [70, 40] from rfl]
    norm_num [useScan, pyDiv]
  have h4 : (0 : ℚ) < 45 - tank2.sliceVolume * ⌊(45 : ℚ) / tank2.sliceVolume⌋ := by
    rw [hslice, floor_half]
    norm_num
  have h := (c2_blend_upward tank2 (165/2) 45 45 (by norm_num)
    (by rw [show tank2.state.length = 2 from rfl]; norm_num) h3 h4).1
  rw [h, hslice, floor_half]
  norm_num [blendUp, show tank2.inlet_temperature = 15 from rfl,
    show tank2.state = [40, 70] from rfl]

/-! Bounds on the volume consumed by the draw scan. -/

lemma useScan_bounds (slice target inlet : ℚ) (hs : 0 ≤ slice) (l : List ℚ) :
    ∀ v u : ℚ, 0 ≤ v → useScan slice target inlet l v = .ok u →
      0 ≤ u ∧ u ≤ (l.length : ℚ) * slice := by
  induction l with
  | nil =>
    intro v u _ h
    simp only [useScan, Except.ok.injEq] at h
    subst h
    simp
  | cons T rest ih =>
    intro v u hv h
    simp only [useScan] at h
    cases hpd : (if target ≤ T then pyDiv (slice * (T - target)) (target - inlet)
        else Except.ok 0) with
    | error e =>
      rw [hpd] at h
      simp at h
    | ok vc =>
      rw [hpd] at h
      have h3 : (if vc + slice ≤ v then
          match useScan slice target inlet rest (v - (vc + slice)) with
          | Except.error e => Except.error e
          | Except.ok u => Except.ok (slice + u)
        else pyDiv (slice * v) (vc + slice)) = Except.ok u := h
      clear h
      by_cases hle : vc + slice ≤ v
      · rw [if_pos hle] at h3
        cases hrec : useScan slice target inlet rest (v - (vc + slice)) with
        | error e =>
          rw [hrec] at h3
          simp at h3
        | ok u0 =>
          rw [hrec] at h3
          simp only [Except.ok.injEq] at h3
          subst h3
          obtain ⟨h0, hb1⟩ := ih (v - (vc + slice)) u0 (by linarith) hrec
          have hlen : (((T :: rest).length : ℚ)) = (rest.length : ℚ) + 1 := by
            push_cast [List.length_cons]
            ring
          refine ⟨by linarith, ?_⟩
          rw [hlen]
          have hexp : ((rest.length : ℚ) + 1) * slice = (rest.length : ℚ) * slice + slice := by
            ring
          rw [hexp]
          linarith
      · rw [if_neg hle] at h3
        unfold pyDiv at h3
        by_cases hz2 : vc + slice = 0
        · rw [if_pos hz2] at h3
          simp at h3
        · rw [if_neg hz2] at h3
          simp only [Except.ok.injEq] at h3
          subst h3
          have hvt : 0 < vc + slice := lt_of_le_of_lt hv (not_le.mp hle)
          have hu0 : 0 ≤ slice * v / (vc + slice) := div_nonneg (mul_nonneg hs hv) hvt.le
          have hu1 : slice * v / (vc + slice) ≤ slice := by
            rw [div_le_iff hvt]
            calc slice * v ≤ slice * (vc + slice) :=
              mul_le_mul_of_nonneg_left (le_of_lt (not_le.mp hle)) hs
            _ = slice * (vc + slice) := rfl
          have hlen : (((T :: rest).length : ℚ)) = (rest.length : ℚ) + 1 := by
            push_cast [List.length_cons]
            ring
          have hrest : (0 : ℚ) ≤ (rest.length : ℚ) * slice :=
            mul_nonneg (Nat.cast_nonneg _) hs
          refine ⟨hu0, ?_⟩
          rw [hlen]
          have hexp : ((rest.length : ℚ) + 1) * slice = (rest.length : ℚ) * slice + slice := by
            ring
          rw [hexp]
          linarith

/-- C9: `update` never changes the number of layers, and a successful
`use_water` restores the original layer count: the state it produces is
some number k of inlet-temperature layers prepended to a remaining stack of
exactly `n - k` layers. -/
theorem c9_layer_count_preserved (t : Tank) (time v target : ℚ) (t2 : Tank)
    (hvol : 0 < t.volume) :
    (t.update time).state.length = t.state.length ∧
    (t.use_water v target = .ok t2 → t2.state.length = t.state.length ∧
      ∃ k rest, k ≤ t.state.length ∧ rest.length = t.state.length - k ∧
        t2.state = List.replicate k t.inlet_temperature ++ rest) := by
  constructor
  · unfold Tank.update
    split
    · rfl
    · rw [Tank.setStateHeating_state, clampState_length, convectionSweep_length,
        energyState_length]
  · intro h
    by_cases h1 : v ≤ 0
    · rw [Tank.use_water, if_pos h1] at h
      simp only [Except.ok.injEq] at h
      subst h
      exact ⟨rfl, 0, t.state, Nat.zero_le _, by simp, by simp⟩
    · by_cases h2 : t.state.length = 0
      · rw [Tank.use_water, if_neg h1, if_pos h2] at h
        simp at h
      · cases hscan : useScan t.sliceVolume target t.inlet_temperature t.state.reverse v with
        | error e =>
          rw [Tank.use_water, if_neg h1, if_neg h2, hscan] at h
          simp at h
        | ok used =>
          rw [Tank.use_water, if_neg h1, if_neg h2, hscan] at h
          simp only [Except.ok.injEq] at h
          subst h
          rw [Tank.setState_state]
          have hs : 0 ≤ t.sliceVolume := by
            rw [Tank.sliceVolume]
            exact div_nonneg hvol.le (by positivity)
          have hb := useScan_bounds t.sliceVolume target t.inlet_temperature hs
            t.state.reverse v used (le_of_lt (not_le.mp h1)) hscan
          have hslice_pos : 0 < t.sliceVolume := by
            rw [Tank.sliceVolume]
            apply div_pos hvol
            exact_mod_cast Nat.pos_of_ne_zero h2
          have hfl : ⌊used / t.sliceVolume⌋ ≤ (t.state.length : ℤ) := by
            have hq : used / t.sliceVolume ≤ (t.state.length : ℚ) := by
              rw [div_le_iff hslice_pos]
              have := hb.2
              rwa [List.length_reverse] at this
            calc ⌊used / t.sliceVolume⌋ ≤ ⌊((t.state.length : ℚ))⌋ := Int.floor_le_floor hq
              _ = (t.state.length : ℤ) := Int.floor_natCast _
          have hWle : (⌊used / t.sliceVolume⌋).toNat ≤ t.state.length := Int.toNat_le.mpr hfl
          constructor
          · rw [List.length_append, List.length_replicate]
            split
            · rw [blendUp_length, List.length_take, min_eq_left (Nat.sub_le _ _)]
              omega
            · rw [List.length_take, min_eq_left (Nat.sub_le _ _)]
              omega
          · refine ⟨(⌊used / t.sliceVolume⌋).toNat, _, hWle, ?_, rfl⟩
            split
            · rw [blendUp_length, List.length_take, min_eq_left (Nat.sub_le _ _)]
            · rw [List.length_take, min_eq_left (Nat.sub_le _ _)]

/-- Witness for C9 at a concrete tick and a concrete successful draw. -/
theorem c9_layer_count_preserved_witness :
    (tank2.update 1).state.length = tank2.state.length ∧
    (tank2.setState [55/2, 55]).state.length = tank2.state.length := by
  have h := c9_layer_count_preserved tank2 1 (165/2) 45 (tank2.setState [55/2, 55])
    (by norm_num [tank2])
  exact ⟨h.1, (h.2 tank2_use_water).1⟩

/-- Counterexample to C8 as stated: the constructor accepts a zero layer
count and negative geometry without any check and produces a Tank instance
(with an empty layer vector). -/
theorem c8_counterexample :
    (mkTank (-1) 0 (-5) [] 60 0 (1/2) 15 20).state = [] ∧
    (mkTank (-1) 0 (-5) [] 60 0 (1/2) 15 20).volume = -5 :=
  ⟨rfl, rfl⟩

/-- C8 (amended): construction performs no validation at all; any parameter
values are accepted and stored as given, and a non-positive layer count
simply yields an empty layer vector (Python list replication). -/
theorem c8_no_validation (d hgt v : ℚ) (hl : List ℕ) (th : ℚ) (layers : ℤ)
    (u inl amb : ℚ) (hlay : layers ≤ 0) :
    (mkTank d hgt v hl th layers u inl amb).state = [] ∧
    (mkTank d hgt v hl th layers u inl amb).volume = v ∧
    (mkTank d hgt v hl th layers u inl amb).diameter = d := by
  refine ⟨?_, rfl, rfl⟩
  rw [show (mkTank d hgt v hl th layers u inl amb).state
    = List.replicate layers.toNat inl from rfl]
  rw [Int.toNat_eq_zero.mpr hlay]
  rfl

/-- Witness for the amended C8. -/
theorem c8_no_validation_witness :
    (mkTank 1 1 (-3) [] 60 (-2) 1 15 20).state = [] ∧
    (mkTank 1 1 (-3) [] 60 (-2) 1 15 20).volume = -3 ∧
    (mkTank 1 1 (-3) [] 60 (-2) 1 15 20).diameter = 1 :=
  c8_no_validation 1 1 (-3) [] 60 (-2) 1 15 20 (by norm_num)
